import Mathlib

/-!
# Shallow embedding of the i960 emulator core

This file embeds, function by function, the parts of the 80960 emulator core
(`i960-core.c`, `i960-mem-op.c`, the CTRL/COBR translation units and the
`i960-emu-*.h` headers) that the verified properties are about, and proves or
refutes each property.

Machine words are modelled as `Nat` with explicit reduction `% 2^32` wherever
the C code performs 32-bit arithmetic.  The register file `r[32]` is modelled
as a total function `Nat → Nat` (all indices that occur are below 32), memory
as a word-addressed map `Nat → Nat` (a read returns the last word written at
that address, which is the memory model granted by the properties under
study), and the external fault reporter `i960_fault` as an event log: raising
a fault conses its type code onto the `faults` list.
-/

/-- `2^32`, the modulus of 32-bit machine arithmetic. -/
def U32 : Nat := 4294967296

/-- Truncation to a 32-bit value, the implicit conversion of C `uint32_t`. -/
def u32 (x : Nat) : Nat := x % U32

/-- From `i960-emu-bits.h`: `(x >> (pos & 31)) & 1`. -/
def u32_bit_select (x pos : Nat) : Nat := (x >>> (pos % 32)) &&& 1

/-- From `i960-emu-bits.h`: `(uint32_t) 1 << (pos & 31)`. -/
def u32_bit_mask (pos : Nat) : Nat := 1 <<< (pos % 32)

/-- From `i960-emu-bits.h`: `(x >> (pos & 31)) & ~(~0u << count)`
(for the `count < 32` uses that occur in the sources). -/
def u32_extract (x pos count : Nat) : Nat := (x >>> (pos % 32)) &&& (2 ^ count - 1)

/-- From `i960-core.c`: `(old & ~mask) | (new & mask)` on 32-bit words. -/
def u32_modify (old new mask : Nat) : Nat :=
  (old &&& (U32 - 1 - mask % U32)) ||| (new &&& mask)

/-- The processor state of `struct i960`, together with the external memory
and the log of fault type codes reported through `i960_fault`. -/
structure I960 where
  r : Nat → Nat
  ip : Nat
  ac : Nat
  pc : Nat
  tc : Nat
  mem : Nat → Nat
  faults : List Nat

/-- Write register `i` (assignment `o->r[i] = v`). -/
def setR (s : I960) (i v : Nat) : I960 :=
  { s with r := fun j => if j = i then v else s.r j }

/-- `i960_read_w`: word read at a 32-bit address. -/
def readW (s : I960) (addr : Nat) : Nat := s.mem (addr % U32)

/-- `i960_write_w`: word write at a 32-bit address. -/
def writeW (s : I960) (addr x : Nat) : I960 :=
  { s with mem := fun a => if a = addr % U32 then u32 x else s.mem a }

/-- `i960_fault (o, type)`: record the reported fault type code. -/
def i960_fault (s : I960) (t : Nat) : I960 :=
  { s with faults := t :: s.faults }

/-- From `i960-emu-compare.h`: `o->ac = (o->ac & ~I960_CC_MASK) | cc`
(`I960_CC_MASK = 7`, `~7` on `uint32_t` is `0xFFFFFFF8`). -/
def i960_set_cond (s : I960) (cc : Nat) : I960 :=
  { s with ac := (s.ac &&& 0xFFFFFFF8) ||| cc }

/-- Two's-complement reading of a 32-bit pattern, C's `(int32_t) x`. -/
def toI32 (x : Nat) : Int :=
  if x % U32 < 2 ^ 31 then (x % U32 : Int) else (x % U32 : Int) - (U32 : Int)

/-- Two's-complement reading of a 64-bit pattern, C's `(int64_t)` value. -/
def toI64 (x : Nat) : Int :=
  if x % 2 ^ 64 < 2 ^ 63 then (x % 2 ^ 64 : Int) else (x % 2 ^ 64 : Int) - 2 ^ 64

/-- The 32-bit pattern of an integer, C's conversion back to `uint32_t`. -/
def ofI32 (z : Int) : Nat := (z % (U32 : Int)).toNat

/-- From `i960-emu-compare.h`, `i960_cmp`: set the condition code to
`less = 4`, `equal = 2` or `greater = 1` from a signed or unsigned compare. -/
def i960_cmp (s : I960) (a b : Nat) (I : Bool) : I960 :=
  let lt : Bool := if I then decide (toI32 a < toI32 b) else decide (a < b)
  i960_set_cond s (if lt then 4 else if a = b then 2 else 1)

/-- From `i960-emu-compare.h`, `i960_concmp`: if the `less` bit of AC is
clear, refine the condition code to `2` (a ≤ b) or `1`. -/
def i960_concmp (s : I960) (a b : Nat) (I : Bool) : I960 :=
  let le : Bool := if I then decide (toI32 a ≤ toI32 b) else decide (a ≤ b)
  if s.ac &&& 4 = 0 then i960_set_cond s (if le then 2 else 1) else s

/-- From the faults header, `i960_on_overflow`: if the AC overflow-mask bit
(bit 12) is set, set the overflow flag (bit 8); else report fault `0x30001`. -/
def i960_on_overflow (s : I960) : I960 :=
  if u32_bit_select s.ac 12 = 1
  then { s with ac := s.ac ||| u32_bit_mask 8 }
  else i960_fault s 0x30001

/-- From `i960-core.c`, `i960_div_check`: report the division-by-zero fault
`0x30002` when the divisor is zero; return whether division may proceed. -/
def i960_div_check (s : I960) (d : Nat) : I960 × Bool :=
  (if d = 0 then i960_fault s 0x30002 else s, decide (d ≠ 0))

/-- From `i960-core.c`, `i32_check_overflow`: sign bit of
`~(a ^ b) & (b ^ r)`, the signed-overflow test for `r = b ± a`. -/
def i32_check_overflow (a b r : Nat) : Bool :=
  (((a ^^^ b) ^^^ (U32 - 1)) &&& (b ^^^ r)).testBit 31

/-- From `i960-emu-branch.h`, `i960_check_cond`: the source reads
`(o->ac && cc) != 0 || (o->ac & I960_CC_MASK) == cc` with `cc` the three
opcode bits at position 24 (note the logical `&&`). -/
def i960_check_cond (s : I960) (op : Nat) : Bool :=
  let cc := u32_extract op 24 3
  (decide (s.ac ≠ 0) && decide (cc ≠ 0)) || decide (s.ac &&& 7 = cc)

/-- The condition predicate as the specification words it: with `ac_cc` the
low three bits of AC, true iff `(cc & ac_cc) != 0` when `cc != 0`, and
`ac_cc == 0` when `cc == 0`. -/
def checkCondSpec (ac op : Nat) : Bool :=
  let cc := u32_extract op 24 3
  let accc := ac &&& 7
  if cc ≠ 0 then decide (cc &&& accc ≠ 0) else decide (accc = 0)

/-- From `i960-core.c`, `u32_add`: 32-bit sum and carry-out (`*r < x`). -/
def u32_add (x y : Nat) : Nat × Nat :=
  let r := (x + y) % U32
  (r, if r < x then 1 else 0)

/-- From `i960-core.c`, `u32_adc`: add with carry-in, result and carry-out. -/
def u32_adc (x y c : Nat) : Nat × Nat :=
  let p := u32_add y c
  let q := u32_add x p.1
  (q.1, p.2 + q.2)

/-- From `i960-core.c`, `u32_sub`: 32-bit difference and borrow (`*r > x`). -/
def u32_sub (x y : Nat) : Nat × Nat :=
  let r := (x + (U32 - y % U32)) % U32
  (r, if x < r then 1 else 0)

/-- From `i960-core.c`, `u32_sbb`: subtract with borrow-in. -/
def u32_sbb (x y c : Nat) : Nat × Nat :=
  let p := u32_add y c
  let q := u32_sub x p.1
  (q.1, p.2 + q.2)

/-- From `i960-core.c`, `reg_addc`: `addc`/`subc` (`F1` = bit 8 selects
subtract), carry-in from AC bit 1, result to `r[c]`, and condition code
`(carry_out << 1) | signed_overflow`. -/
def reg_addc (s : I960) (op a b c : Nat) : I960 :=
  let F1 := u32_bit_select op 8
  let cin : Nat := if s.ac &&& 2 ≠ 0 then 1 else 0
  let p := if F1 = 1 then u32_sbb a b cin else u32_adc a b cin
  let s1 := setR s c p.1
  i960_set_cond s1 ((p.2 <<< 1) ||| (if i32_check_overflow a b p.1 then 1 else 0))

/-- From `i960-core.c`, `reg_scanbyte` (the live `#if 1` branch): fold the
byte-wise XOR with shifted ANDs and set CC to 2 when the folded byte is 0. -/
def reg_scanbyte (s : I960) (op a b c : Nat) : I960 :=
  let c0 := a ^^^ b
  let c1 := (c0 >>> 16) &&& c0
  let c2 := (c1 >>> 8) &&& c1
  i960_set_cond s (if c2 &&& 0xff = 0 then 2 else 0)

/-- The disabled `#else` reference branch of `reg_scanbyte` in the source:
CC is 2 exactly when some byte of `a` equals the byte of `b` there. -/
def scanbyte_ref (a b : Nat) : Bool :=
  decide (a &&& 0x000000ff = b &&& 0x000000ff) ||
  decide (a &&& 0x0000ff00 = b &&& 0x0000ff00) ||
  decide (a &&& 0x00ff0000 = b &&& 0x00ff0000) ||
  decide (a &&& 0xff000000 = b &&& 0xff000000)

/-- From `i960-core.c`, `reg_chkbit`: CC := 2 if bit `a` of `b` is set. -/
def reg_chkbit (s : I960) (op a b c : Nat) : I960 :=
  i960_set_cond s (if u32_bit_select b a = 0 then 0 else 2)

/-- From `i960-core.c`, `reg_scanbit`: `r[c]` gets `~0` or `31 - clz a`
(i.e. `log2 a`), CC := 0 when `a = 0` else 2. -/
def reg_scanbit (s : I960) (op a b c : Nat) : I960 :=
  let s1 := setR s c (if a = 0 then U32 - 1 else Nat.log2 a)
  i960_set_cond s1 (if a = 0 then 0 else 2)

/-- `i960_b`: unconditional branch, `ip := efa`. -/
def i960_b (s : I960) (efa : Nat) : I960 := { s with ip := efa }

/-- `uint32 + int32` wraparound sum used for `ip + disp`. -/
def addDisp (x : Nat) (d : Int) : Nat := (((x : Int) + d) % (U32 : Int)).toNat

/-- From the COBR translation unit, `cobr_bb`: the `bbc`/`bbs` operation.
Bit `a` of `b` is compared with opcode bit C0 (bit 24); on a match CC := 2
and the branch to `ip + disp` is taken, else CC := 0. -/
def cobr_bb (s : I960) (op a b : Nat) (disp : Int) : I960 :=
  let C0 := u32_bit_select op 24
  let ok := decide (u32_bit_select b a = C0)
  let s1 := i960_set_cond s (if ok then 2 else 0)
  if ok then i960_b s1 (addDisp s1.ip disp) else s1

/-! ## Claim C1: the condition predicate -/

/-- C1.  `i960_check_cond` does not implement the specified predicate: the
source uses the logical `&&` where the bit test needs `&`, so with
`ac = 8` (condition-code field zero, any other AC bit set) and an opcode
with condition bits `001`, the code answers `true` while the specified
predicate `(cc & ac_cc) != 0` is false. -/
theorem c1_check_cond_bug :
    i960_check_cond ⟨fun _ => 0, 0, 8, 0, 0, fun _ => 0, []⟩ 0x01000000 = true ∧
    checkCondSpec 8 0x01000000 = false := by
  constructor <;> decide

/-! ## Claim C5: integer-overflow policy -/

/-- C5.  Whenever an integer-overflow condition is signalled through
`i960_on_overflow`: with the AC overflow-mask bit (bit 12) set, the AC
overflow-flag bit (bit 8) becomes set and no fault is reported; with the
mask bit clear, fault `0x30001` is reported and AC (hence its flag bit) is
left untouched. -/
theorem c5_on_overflow (s : I960) :
    (s.ac.testBit 12 = true →
      (i960_on_overflow s).ac = s.ac ||| 2 ^ 8 ∧
      (i960_on_overflow s).ac.testBit 8 = true ∧
      (i960_on_overflow s).faults = s.faults) ∧
    (s.ac.testBit 12 = false →
      (i960_on_overflow s).faults = 0x30001 :: s.faults ∧
      (i960_on_overflow s).ac = s.ac) := by
  have hsel : u32_bit_select s.ac 12 = 1 ↔ s.ac.testBit 12 = true := by
    simp [u32_bit_select, Nat.and_one_is_mod, Nat.testBit_to_div_mod,
      Nat.shiftRight_eq_div_pow]
  constructor
  · intro h
    rw [i960_on_overflow, if_pos (hsel.mpr h)]
    refine ⟨rfl, ?_, rfl⟩
    simp [u32_bit_mask, Nat.testBit_or]
    right
    decide
  · intro h
    rw [i960_on_overflow, if_neg ?_]
    · exact ⟨rfl, rfl⟩
    · intro hc
      rw [hsel.mp hc] at h
      exact Bool.noConfusion h

/-- Witness for C5 at concrete states on both sides of the mask bit. -/
theorem c5_on_overflow_witness :
    ((i960_on_overflow ⟨fun _ => 0, 0, 4096, 0, 0, fun _ => 0, []⟩).ac = 4096 ||| 2 ^ 8 ∧
     (i960_on_overflow ⟨fun _ => 0, 0, 4096, 0, 0, fun _ => 0, []⟩).ac.testBit 8 = true ∧
     (i960_on_overflow ⟨fun _ => 0, 0, 4096, 0, 0, fun _ => 0, []⟩).faults = []) ∧
    ((i960_on_overflow ⟨fun _ => 0, 0, 2, 0, 0, fun _ => 0, []⟩).faults = [0x30001] ∧
     (i960_on_overflow ⟨fun _ => 0, 0, 2, 0, 0, fun _ => 0, []⟩).ac = 2) :=
  ⟨(c5_on_overflow ⟨fun _ => 0, 0, 4096, 0, 0, fun _ => 0, []⟩).1 (by decide),
   (c5_on_overflow ⟨fun _ => 0, 0, 2, 0, 0, fun _ => 0, []⟩).2 (by decide)⟩

/-! ## Claim C2: the condition-code field -/

/-- `U32` is `2^32`. -/
theorem U32_eq : U32 = 2 ^ 32 := by norm_num [U32]

/-- Writing a condition code below 8 into AC: the low 3 bits become the code
and the bits above them are preserved. -/
theorem set_cond_ac_split (ac cc : Nat) (hac : ac < U32) (hcc : cc < 8) :
    ((ac &&& 0xFFFFFFF8) ||| cc) % 8 = cc ∧
    ((ac &&& 0xFFFFFFF8) ||| cc) / 8 = ac / 8 := by
  have hM : (0xFFFFFFF8 : Nat) = (2 ^ 29 - 1) <<< 3 := by decide
  constructor
  · have h1 : ((ac &&& 0xFFFFFFF8) ||| cc) % 8 =
        ((ac &&& 0xFFFFFFF8) ||| cc) &&& (2 ^ 3 - 1) :=
      (Nat.and_pow_two_sub_one_eq_mod _ 3).symm
    rw [h1, Nat.and_distrib_right, Nat.and_assoc]
    have h2 : (0xFFFFFFF8 : Nat) &&& (2 ^ 3 - 1) = 0 := by decide
    have h3 : cc &&& (2 ^ 3 - 1) = cc := Nat.and_pow_two_sub_one_of_lt_two_pow hcc
    rw [h2, h3, Nat.and_zero, Nat.zero_or]
  · rw [show (8 : Nat) = 2 ^ 3 from rfl, ← Nat.shiftRight_eq_div_pow,
      ← Nat.shiftRight_eq_div_pow]
    apply Nat.eq_of_testBit_eq
    intro i
    rw [Nat.testBit_shiftRight, Nat.testBit_shiftRight, Nat.testBit_or,
      Nat.testBit_and]
    have hM3 : Nat.testBit 0xFFFFFFF8 (3 + i) = decide (i < 29) := by
      rw [hM, Nat.testBit_shiftLeft, Nat.testBit_two_pow_sub_one]
      simp
    have h8 : (8 : Nat) ≤ 2 ^ (3 + i) :=
      calc (8 : Nat) = 2 ^ 3 := rfl
        _ ≤ 2 ^ (3 + i) := Nat.pow_le_pow_right (by norm_num) (by omega)
    have hcc3 : Nat.testBit cc (3 + i) = false :=
      Nat.testBit_lt_two_pow (lt_of_lt_of_le hcc h8)
    rw [hM3, hcc3, Bool.or_false]
    by_cases h : i < 29
    · simp [h]
    · have h32 : (2 : Nat) ^ 32 ≤ 2 ^ (3 + i) :=
        Nat.pow_le_pow_right (by norm_num) (by omega)
      have hhi : Nat.testBit ac (3 + i) = false :=
        Nat.testBit_lt_two_pow (lt_of_lt_of_le (U32_eq ▸ hac) h32)
      simp [h, hhi]

/-- Shape of a condition-code update: either AC is untouched, or its low
3 bits land in `{0,1,2,3,4}` and all higher bits are preserved. -/
def CCUpd (s t : I960) : Prop :=
  t.ac = s.ac ∨
  (t.ac / 8 = s.ac / 8 ∧
    (t.ac % 8 = 0 ∨ t.ac % 8 = 1 ∨ t.ac % 8 = 2 ∨ t.ac % 8 = 3 ∨ t.ac % 8 = 4))

/-- Any `i960_set_cond` with code at most 4 is a `CCUpd` step. -/
theorem ccupd_of_le (s s1 : I960) (cc : Nat) (hac : s1.ac = s.ac)
    (h : s.ac < U32) (hcc : cc ≤ 4) : CCUpd s (i960_set_cond s1 cc) := by
  right
  have := set_cond_ac_split s.ac cc h (by omega)
  simp only [i960_set_cond, hac]
  exact ⟨this.2, by omega⟩

/-- The carry-out of `u32_adc` on 32-bit inputs is at most 1. -/
theorem u32_adc_carry_le (x y c : Nat) (hx : x < U32) (hy : y < U32)
    (hc : c ≤ 1) : (u32_adc x y c).2 ≤ 1 := by
  unfold u32_adc u32_add
  simp only [U32] at *
  split_ifs <;> omega

/-- The borrow-out of `u32_sbb` on 32-bit inputs is at most 1. -/
theorem u32_sbb_carry_le (x y c : Nat) (hx : x < U32) (hy : y < U32)
    (hc : c ≤ 1) : (u32_sbb x y c).2 ≤ 1 := by
  unfold u32_sbb u32_add u32_sub
  simp only [U32] at *
  split_ifs <;> omega

/-- A fixture state: all registers and control registers zero. -/
def S0 : I960 := ⟨fun _ => 0, 0, 0, 0, 0, fun _ => 0, []⟩

/-- A two-bit condition code `(carry << 1) | overflow` is at most 4. -/
theorem carry_cc_le (x y : Nat) (hx : x ≤ 1) (hy : y ≤ 1) :
    (x <<< 1) ||| y ≤ 4 := by
  interval_cases x <;> interval_cases y <;> decide

/-- C2 (amended).  Every operation of the core that updates the condition
code through `i960_set_cond` — the compares, `addc`/`subc`, `scanbyte`,
`chkbit`, `scanbit`/`spanbit` and the bit branches — either leaves AC
untouched or writes a condition code in `{0, 1, 2, 3, 4}` while preserving
every AC bit above the low three.  (`addc`/`subc` can produce code 3 =
carry + overflow, which the original `{0,1,2,4}` claim excluded.) -/
theorem c2_cond_code_amended (s : I960) (op a b c : Nat) (I : Bool) (d : Int)
    (hac : s.ac < U32) (ha : a < U32) (hb : b < U32) :
    CCUpd s (i960_cmp s a b I) ∧ CCUpd s (i960_concmp s a b I) ∧
    CCUpd s (reg_addc s op a b c) ∧ CCUpd s (reg_scanbyte s op a b c) ∧
    CCUpd s (reg_chkbit s op a b c) ∧ CCUpd s (reg_scanbit s op a b c) ∧
    CCUpd s (cobr_bb s op a b d) := by
  have hcin : (if s.ac &&& 2 ≠ 0 then 1 else 0 : Nat) ≤ 1 := by
    split_ifs <;> norm_num
  have hco : ∀ n : Nat, n ≤ 1 →
      (if u32_bit_select op 8 = 1 then u32_sbb a b n else u32_adc a b n).2 ≤ 1 := by
    intro n hn
    split_ifs with h
    · exact u32_sbb_carry_le a b n ha hb hn
    · exact u32_adc_carry_le a b n ha hb hn
  refine ⟨?_, ?_, ?_, ?_, ?_, ?_, ?_⟩
  · unfold i960_cmp
    apply ccupd_of_le s s _ rfl hac
    split_ifs <;> norm_num
  · unfold i960_concmp
    by_cases h4 : s.ac &&& 4 = 0
    · rw [if_pos h4]
      apply ccupd_of_le s s _ rfl hac
      split_ifs <;> norm_num
    · rw [if_neg h4]
      left
      rfl
  · unfold reg_addc
    apply ccupd_of_le s (setR s c _) _ rfl hac
    apply carry_cc_le
    · exact hco _ hcin
    · split_ifs <;> norm_num
  · unfold reg_scanbyte
    apply ccupd_of_le s s _ rfl hac
    split_ifs <;> norm_num
  · unfold reg_chkbit
    apply ccupd_of_le s s _ rfl hac
    split_ifs <;> norm_num
  · unfold reg_scanbit
    apply ccupd_of_le s (setR s c _) _ rfl hac
    split_ifs <;> norm_num
  · unfold cobr_bb
    dsimp only
    split_ifs with hok
    · exact ccupd_of_le s s 2 rfl hac (by norm_num)
    · exact ccupd_of_le s s 0 rfl hac (by norm_num)

/-- Witness for C2 at a concrete state and operands. -/
theorem c2_cond_code_amended_witness :
    CCUpd S0 (i960_cmp S0 1 2 false) ∧ CCUpd S0 (i960_concmp S0 1 2 false) ∧
    CCUpd S0 (reg_addc S0 0 1 2 5) ∧ CCUpd S0 (reg_scanbyte S0 0 1 2 5) ∧
    CCUpd S0 (reg_chkbit S0 0 1 2 5) ∧ CCUpd S0 (reg_scanbit S0 0 1 2 5) ∧
    CCUpd S0 (cobr_bb S0 0 1 2 0) :=
  c2_cond_code_amended S0 0 1 2 5 false 0 (by decide) (by decide) (by decide)

/-- Counterexample to C2 as stated: `addc` on `0x80000000 + 0x80000000`
carries out and overflows at once, leaving condition code 3, which is not
in `{0, 1, 2, 4}`. -/
theorem c2_addc_counterexample :
    ¬ ((reg_addc S0 0 0x80000000 0x80000000 5).ac &&& 7 = 0 ∨
       (reg_addc S0 0 0x80000000 0x80000000 5).ac &&& 7 = 1 ∨
       (reg_addc S0 0 0x80000000 0x80000000 5).ac &&& 7 = 2 ∨
       (reg_addc S0 0 0x80000000 0x80000000 5).ac &&& 7 = 4) := by
  decide

/-! ## Claim C3: call followed by ret -/

/-- One iteration of the `i960_ldx` loop: `o->r[c + i] = i960_read_w (o, efa + i)`. -/
def ldx1 (s : I960) (efa c i : Nat) : I960 := setR s (c + i) (readW s (efa + i))

/-- From `i960-emu-branch.h`, `i960_ldx`: the 16-iteration register-window
load loop, unrolled (note the source addresses `efa + i`, not `efa + 4*i`). -/
def i960_ldx (s : I960) (efa c : Nat) : I960 :=
  ldx1 (ldx1 (ldx1 (ldx1 (ldx1 (ldx1 (ldx1 (ldx1 (ldx1 (ldx1 (ldx1 (ldx1 (ldx1
    (ldx1 (ldx1 (ldx1 s efa c 0) efa c 1) efa c 2) efa c 3) efa c 4) efa c 5)
    efa c 6) efa c 7) efa c 8) efa c 9) efa c 10) efa c 11) efa c 12) efa c 13)
    efa c 14) efa c 15

/-- One iteration of the `i960_stx` loop: `i960_write_w (o, efa + i, o->r[c + i])`. -/
def stx1 (s : I960) (efa c i : Nat) : I960 := writeW s (efa + i) (s.r (c + i))

/-- From `i960-emu-branch.h`, `i960_stx`: the 16-iteration register-window
store loop, unrolled. -/
def i960_stx (s : I960) (efa c : Nat) : I960 :=
  stx1 (stx1 (stx1 (stx1 (stx1 (stx1 (stx1 (stx1 (stx1 (stx1 (stx1 (stx1 (stx1
    (stx1 (stx1 (stx1 s efa c 0) efa c 1) efa c 2) efa c 3) efa c 4) efa c 5)
    efa c 6) efa c 7) efa c 8) efa c 9) efa c 10) efa c 11) efa c 12) efa c 13)
    efa c 14) efa c 15

/-- From `i960-emu-branch.h`, `i960_call`: allocate the 64-byte-aligned new
frame, save RIP, store the register window at the old FP, link PFP/FP/SP and
branch. -/
def i960_call (s : I960) (efa : Nat) : I960 :=
  let fp := ((s.r 1 + 63) % U32) &&& 0xFFFFFFC0
  let s1 := setR s 2 s.ip
  let s2 := i960_stx s1 (s1.r 31) 16
  let s3 := setR s2 0 (s2.r 31)
  let s4 := setR s3 31 fp
  let s5 := setR s4 1 ((fp + 64) % U32)
  i960_b s5 efa

/-- From `i960-emu-branch.h`, `i960_ret`: realign FP from PFP, reload the
register window and branch to RIP. -/
def i960_ret (s : I960) : I960 :=
  let s1 := setR s 31 (s.r 0 &&& 0xFFFFFFC0)
  let s2 := i960_ldx s1 (s1.r 31) 16
  i960_b s2 (s2.r 2)

/-- `setR` at a different index does not change a register. -/
theorem setR_r_ne (t : I960) (i v j : Nat) (h : j ≠ i) :
    (setR t i v).r j = t.r j := by simp [setR, h]

/-- `setR` writes its index. -/
theorem setR_r_eq (t : I960) (i v : Nat) : (setR t i v).r i = v := by simp [setR]

/-- One `stx` iteration only writes memory. -/
theorem stx1_r (t : I960) (efa c i : Nat) : (stx1 t efa c i).r = t.r := rfl

/-- `i960_stx` only writes memory. -/
theorem stx_r (t : I960) (efa c : Nat) : (i960_stx t efa c).r = t.r := by
  unfold i960_stx
  rw [stx1_r, stx1_r, stx1_r, stx1_r, stx1_r, stx1_r, stx1_r, stx1_r, stx1_r,
    stx1_r, stx1_r, stx1_r, stx1_r, stx1_r, stx1_r, stx1_r]

/-- `i960_b` only writes `ip`. -/
theorem b_r (t : I960) (e : Nat) : (i960_b t e).r = t.r := rfl

/-- `i960_b` sets `ip` to its target. -/
theorem b_ip (t : I960) (e : Nat) : (i960_b t e).ip = e := rfl

/-- One `ldx` iteration leaves the registers it does not target alone. -/
theorem ldx1_r_ne (t : I960) (efa c i j : Nat) (h : j ≠ c + i) :
    (ldx1 t efa c i).r j = t.r j := setR_r_ne t (c + i) _ j h

/-- The window load into `r[c..c+15]` leaves registers below `c` alone. -/
theorem ldx_r_lt (t : I960) (efa c j : Nat) (h : j < c) :
    (i960_ldx t efa c).r j = t.r j := by
  unfold i960_ldx
  repeat rw [ldx1_r_ne]
  all_goals omega

/-- C3 (amended).  `i960_call` immediately followed by `i960_ret` leaves
`r3..r15` exactly as before the call and leaves `ip` equal to the RIP
captured by the call (the post-fetch `ip` at the call, still held in `r2`);
`r0` instead ends up holding the caller's FP (the frame link written by
`call` and not restored by `ret`). -/
theorem c3_call_ret_amended (s : I960) (efa : Nat) :
    (∀ j, 3 ≤ j → j ≤ 15 → (i960_ret (i960_call s efa)).r j = s.r j) ∧
    (i960_ret (i960_call s efa)).ip = s.ip ∧
    (i960_ret (i960_call s efa)).r 2 = s.ip ∧
    (i960_ret (i960_call s efa)).r 0 = s.r 31 := by
  have hcall : ∀ j, j ≠ 0 → j ≠ 1 → j ≠ 2 → j ≠ 31 →
      (i960_call s efa).r j = s.r j := by
    intro j h0 h1 h2 h31
    unfold i960_call
    dsimp only
    rw [b_r, setR_r_ne _ _ _ _ h1, setR_r_ne _ _ _ _ h31, setR_r_ne _ _ _ _ h0,
      stx_r, setR_r_ne _ _ _ _ h2]
  have hcall2 : (i960_call s efa).r 2 = s.ip := by
    unfold i960_call
    dsimp only
    rw [b_r, setR_r_ne _ _ _ _ (by omega), setR_r_ne _ _ _ _ (by omega),
      setR_r_ne _ _ _ _ (by omega), stx_r, setR_r_eq]
  have hcall0 : (i960_call s efa).r 0 = s.r 31 := by
    unfold i960_call
    dsimp only
    rw [b_r, setR_r_ne _ _ _ _ (by omega), setR_r_ne _ _ _ _ (by omega),
      setR_r_eq, stx_r, setR_r_ne _ _ _ _ (by omega)]
  have hret : ∀ t : I960, ∀ j, j < 16 → j ≠ 31 → (i960_ret t).r j = t.r j := by
    intro t j hj h31
    unfold i960_ret
    dsimp only
    rw [b_r, ldx_r_lt _ _ _ _ hj, setR_r_ne _ _ _ _ h31]
  have hretip : ∀ t : I960, (i960_ret t).ip = t.r 2 := by
    intro t
    unfold i960_ret
    dsimp only
    rw [b_ip, ldx_r_lt _ _ _ _ (by omega), setR_r_ne _ _ _ _ (by omega)]
  refine ⟨?_, ?_, ?_, ?_⟩
  · intro j h3 h15
    rw [hret _ j (by omega) (by omega),
      hcall j (by omega) (by omega) (by omega) (by omega)]
  · rw [hretip, hcall2]
  · rw [hret _ 2 (by omega) (by omega), hcall2]
  · rw [hret _ 0 (by omega) (by omega), hcall0]

/-- A fixture state for C3: register `i` holds `100 + i`, `ip = 7777`. -/
def CS3 : I960 := ⟨fun i => 100 + i, 7777, 0, 0, 0, fun _ => 0, []⟩

/-- Witness for C3 at the fixture state, register 3. -/
theorem c3_call_ret_amended_witness :
    (i960_ret (i960_call CS3 5)).r 3 = CS3.r 3 ∧
    (i960_ret (i960_call CS3 5)).ip = CS3.ip :=
  ⟨(c3_call_ret_amended CS3 5).1 3 (by decide) (by decide),
   (c3_call_ret_amended CS3 5).2.1⟩

/-- Counterexample to C3 as stated: after `call; ret`, register `r0` (PFP)
holds the caller's FP (131 here), not its pre-call value (100): the window
saved and reloaded by this code is `r[16..31]`, and `r0/r1` keep the frame
link values. -/
theorem c3_call_ret_counterexample :
    ¬ (i960_ret (i960_call CS3 5)).r 0 = CS3.r 0 := by
  decide

/-! ## Claim C4: division by zero.  Claim C9: mul/div overflow detection -/

/-- From `i960-core.c`, `reg_divo`: `divo` (`F1` = bit 8) and `remo`; the
quotient or remainder is written only when the divisor check passed. -/
def reg_divo (s : I960) (op a b c : Nat) : I960 :=
  let F1 := u32_bit_select op 8
  let p := i960_div_check s a
  if p.2 then setR p.1 c (if F1 = 1 then b / a else b % a) else p.1

/-- From `i960-core.c`, `reg_remi`: `remi` and (`F0` = bit 7) `modi`: the
C-style signed remainder, adjusted by `+ a` for `modi` when non-zero and the
operands differ in sign.  Early return on a zero divisor. -/
def reg_remi (s : I960) (op a b c : Nat) : I960 :=
  let F0 := u32_bit_select op 7
  let p := i960_div_check s a
  if p.2 = false then p.1 else
    let r := ofI32 (Int.tmod (toI32 b) (toI32 a))
    let s1 := setR p.1 c r
    if F0 = 1 ∧ r ≠ 0 ∧ (a ^^^ b).testBit 31 then setR s1 c ((r + a) % U32)
    else s1

/-- From `i960-core.c`, `reg_divi`: signed division (early return on a zero
divisor) followed by the sign test `(int32_t)(a ^ b ^ r) < 0`, on which
integer overflow is signalled.  The C quotient `INT32_MIN / -1` is undefined
behaviour; the embedding takes its wrapped 32-bit pattern. -/
def reg_divi (s : I960) (op a b c : Nat) : I960 :=
  let p := i960_div_check s a
  if p.2 = false then p.1 else
    let q := ofI32 (Int.tdiv (toI32 b) (toI32 a))
    let s1 := setR p.1 c q
    if (a ^^^ b ^^^ q).testBit 31 then i960_on_overflow s1 else s1

/-- From `i960-core.c`, `reg_ediv`: extended 64/32 division.  `bh` is the
odd register of the source pair; on a zero divisor the fault is reported and
the destination pair is still written with `b` and `0`. -/
def reg_ediv (s : I960) (op a b c : Nat) : I960 :=
  let bh := s.r (u32_extract op 14 5 ||| 1)
  let bl := (bh <<< 32) ||| b
  let p := i960_div_check s a
  let s1 := setR p.1 (c ||| 0) (if p.2 then bl % a else b)
  setR s1 (c ||| 1) (if p.2 then (bl / a) % U32 else 0)

/-- From `i960-core.c`, `reg_muli`: the source widens the **unsigned**
operand values to `int64_t`, multiplies, stores the low 32 bits, and signals
integer overflow when that product leaves the `int32_t` range. -/
def reg_muli (s : I960) (op a b c : Nat) : I960 :=
  let r : Int := toI64 (a * b)
  let s1 := setR s c (ofI32 r)
  if r < -(2 ^ 31) ∨ r > 2 ^ 31 - 1 then i960_on_overflow s1 else s1

/-- C4 (amended).  With a zero divisor, `divo`/`remo`, `remi`/`modi` and
`divi` report fault `0x30002` and leave the whole register file unmodified;
`ediv` reports the same fault but still writes its destination pair, with
the low dividend word `b` into `r[c]` and `0` into `r[c|1]`. -/
theorem c4_div_by_zero_amended (s : I960) (op b c : Nat) :
    ((reg_divo s op 0 b c).faults = 0x30002 :: s.faults ∧
      (reg_divo s op 0 b c).r = s.r) ∧
    ((reg_remi s op 0 b c).faults = 0x30002 :: s.faults ∧
      (reg_remi s op 0 b c).r = s.r) ∧
    ((reg_divi s op 0 b c).faults = 0x30002 :: s.faults ∧
      (reg_divi s op 0 b c).r = s.r) ∧
    ((reg_ediv s op 0 b c).faults = 0x30002 :: s.faults ∧
      (reg_ediv s op 0 b c).r (c ||| 1) = 0 ∧
      (c ||| 1 ≠ c → (reg_ediv s op 0 b c).r c = b)) := by
  refine ⟨⟨?_, ?_⟩, ⟨?_, ?_⟩, ⟨?_, ?_⟩, ⟨?_, ?_, ?_⟩⟩
  · simp [reg_divo, i960_div_check, i960_fault]
  · simp [reg_divo, i960_div_check, i960_fault]
  · simp [reg_remi, i960_div_check, i960_fault]
  · simp [reg_remi, i960_div_check, i960_fault]
  · simp [reg_divi, i960_div_check, i960_fault]
  · simp [reg_divi, i960_div_check, i960_fault]
  · simp [reg_ediv, i960_div_check, i960_fault, setR]
  · simp [reg_ediv, i960_div_check, i960_fault, setR]
  · intro h
    simp [reg_ediv, i960_div_check, i960_fault, setR, h.symm, Ne.symm h]

/-- Witness for C4 at a concrete state (registers all 7, `b = 9`, `c = 4`). -/
theorem c4_div_by_zero_amended_witness :
    (reg_divo ⟨fun _ => 7, 0, 0, 0, 0, fun _ => 0, []⟩ 0 0 9 4).faults = [0x30002] ∧
    ((reg_ediv ⟨fun _ => 7, 0, 0, 0, 0, fun _ => 0, []⟩ 0 0 9 4).r 4 = 9) :=
  ⟨(c4_div_by_zero_amended ⟨fun _ => 7, 0, 0, 0, 0, fun _ => 0, []⟩ 0 9 4).1.1,
   (c4_div_by_zero_amended ⟨fun _ => 7, 0, 0, 0, 0, fun _ => 0, []⟩ 0 9 4).2.2.2.2.2
     (by decide)⟩

/-- Counterexample to C4 as stated: `ediv` with divisor 0 modifies its
destination pair, here `r5` becomes 0 though it held 7 before. -/
theorem c4_ediv_counterexample :
    ¬ (reg_ediv ⟨fun _ => 7, 0, 0, 0, 0, fun _ => 0, []⟩ 0 0 9 4).r 5 =
      (⟨fun _ => 7, 0, 0, 0, 0, fun _ => 0, []⟩ : I960).r 5 := by
  decide

/-- C9.  `muli`/`divi` overflow detection is wrong in the source: `muli`
widens the operands without the `(int32_t)` casts, so `0xFFFFFFFF * 1`
(signed `-1 * 1`, which fits) is flagged as overflow; `divi` tests
`(int32_t)(a ^ b ^ q) < 0`, which also fires whenever the quotient is 0 and
the operands differ in sign, e.g. `1 / -2`.  Both runs below must raise no
overflow per the claim, yet both report fault `0x30001`. -/
theorem c9_muldiv_overflow_bug :
    (reg_muli S0 0 0xFFFFFFFF 1 5).faults = [0x30001] ∧
    (reg_muli S0 0 0xFFFFFFFF 1 5).r 5 = 0xFFFFFFFF ∧
    (toI32 0xFFFFFFFF * toI32 1 = -1) ∧
    (reg_divi S0 0 0xFFFFFFFE 1 5).faults = [0x30001] ∧
    (¬ (toI32 1 = -(2 ^ 31) ∧ toI32 0xFFFFFFFE = -1)) := by
  refine ⟨by decide, by decide, by decide, by decide, by decide⟩

/-! ## Claim C7: the rounded signed shift -/

/-- From `i960-core.c`, `reg_shrdi`: arithmetic right shift with the count
saturated at 31, followed by the live rounding test
`if (b < (o->r[c] << n)) o->r[c] += 1` (an unsigned comparison). -/
def reg_shrdi (s : I960) (op a b c : Nat) : I960 :=
  let n := if a < 32 then a else 31
  let r := ofI32 ((toI32 b) >>> n)
  let s1 := setR s c r
  if b < (r <<< n) % U32 then setR s1 c ((r + 1) % U32) else s1

/-- The claimed `shrdi` semantics: arithmetic right shift of `b` by
`min(a,31)`, plus 1 exactly when the shifted-off bits of `b` are non-zero
and `b` is negative as a signed 32-bit value. -/
def shrdiSpec (a b : Nat) : Nat :=
  let n := min a 31
  let q := ofI32 ((toI32 b) >>> n)
  if b &&& (2 ^ n - 1) ≠ 0 ∧ toI32 b < 0 then (q + 1) % U32 else q

/-- C7.  The rounding branch of `reg_shrdi` never fires (the unsigned test
`b < (r << n)` compares `b` against `b` with its low bits cleared), so
`shrdi 1, 0xFFFFFFFF` (signed `-1 >> 1`) yields `0xFFFFFFFF` where the
claimed round-toward-zero semantics yields 0. -/
theorem c7_shrdi_bug :
    (reg_shrdi S0 0 1 0xFFFFFFFF 4).r 4 = 0xFFFFFFFF ∧
    shrdiSpec 1 0xFFFFFFFF = 0 := by
  constructor <;> decide

/-! ## Claim C8: scanbyte -/

/-- C8.  The live `reg_scanbyte` reduces the four bytes of `a ^ b` by
bitwise AND and tests that for zero, which is not "some byte equal": with
`a = 0` and `b = 0x01010201` no byte matches (the reference branch kept in
the source under `#else` answers false), yet the code sets CC = 2. -/
theorem c8_scanbyte_bug :
    (reg_scanbyte S0 0 0 0x01010201 4).ac &&& 7 = 2 ∧
    scanbyte_ref 0 0x01010201 = false := by
  constructor <;> decide

/-! ## Claim C6: bbc/bbs dispatch -/

/-- From `i960-emu-branch.h`, `i960_bcc`: conditional branch. -/
def i960_bcc (s : I960) (op efa : Nat) : I960 :=
  if i960_check_cond s op then i960_b s efa else s

/-- From the COBR translation unit, `cobr_testcc`: write the condition
match into register `c` (opcode bits 19..23). -/
def cobr_testcc (s : I960) (op a b : Nat) (disp : Int) : I960 :=
  setR s (u32_extract op 19 5) (if i960_check_cond s op then 1 else 0)

/-- From the COBR translation unit, `cobr_cmpbcc`: compare (signedness from
opcode bit 27) and branch on the encoded condition. -/
def cobr_cmpbcc (s : I960) (op a b : Nat) (disp : Int) : I960 :=
  let s1 := i960_cmp s a b (u32_bit_select op 27 = 1)
  i960_bcc s1 op (addDisp s1.ip disp)

/-- From the COBR translation unit, `cobr_op`: the dispatcher.  Note the
source compares the **whole 32-bit word** `op` against `0x30`/`0x37`
(`if (op == 0x30 || op == 0x37)`), not the opcode byte `op >> 24`. -/
def cobr_op (s : I960) (op a b : Nat) (disp : Int) : I960 :=
  if u32_bit_select op 28 = 0 then cobr_testcc s op a b disp
  else if op = 0x30 ∨ op = 0x37 then cobr_bb s op a b disp
  else cobr_cmpbcc s op a b disp

/-- From the COBR translation unit, `i960_cobr_disp` behaviour inlined in
`i960_cobr`: sign-extend bits 0..12 of the word and clear the low two bits
(`(((int32_t) op << 19) >> 19) & ~3`). -/
def i960_cobr_disp (op : Nat) : Int :=
  let d : Int := (op &&& 0x1FFC : Nat)
  if op.testBit 12 then d - 8192 else d

/-- From the COBR translation unit, `i960_cobr`: operand fetch (literal
`a` when bit 13 is set) and dispatch.  The `ip` parameter is unused by the
source as well; branch targets use `o->ip`. -/
def i960_cobr (s : I960) (op ip : Nat) : I960 :=
  let ai := u32_extract op 19 5
  let bi := u32_extract op 14 5
  let a := if u32_bit_select op 13 = 1 then ai else s.r ai
  let b := s.r bi
  cobr_op s op a b (i960_cobr_disp op)

/-- A fixture state for C6: `r2 = 2`, every other register 0, `ip = 1000`. -/
def CS6 : I960 := ⟨fun i => if i = 2 then 2 else 0, 1000, 0, 0, 0, fun _ => 0, []⟩

/-- C6.  The word `0x30088008` is `bbc r1, r2, 8` (opcode byte `0x30`,
`a = r1 = 0`, `b = r2 = 2`).  Bit 0 of 2 is 0, matching C0 = 0, so the
claimed `bbc` semantics (as `cobr_bb` in the same file computes) sets
CC = 2 and branches to `ip + 8 = 1008`.  But `cobr_op` compares the whole
word with `0x30`, fails, and runs the compare-and-branch path instead:
the executed instruction leaves CC = 4 (unsigned `0 < 2`) and does not
branch.  -/
theorem c6_bb_dispatch_bug :
    (i960_cobr CS6 0x30088008 1000).ac &&& 7 = 4 ∧
    (i960_cobr CS6 0x30088008 1000).ip = 1000 ∧
    (cobr_bb CS6 0x30088008 0 2 8).ac &&& 7 = 2 ∧
    (cobr_bb CS6 0x30088008 0 2 8).ip = 1008 := by
  refine ⟨by decide, by decide, by decide, by decide⟩

/-! ## Claim C10: multi-word register transfers -/

/-- From `i960-mem-op.c`, `mem_ldl`: two word loads into `r[c|0]`, `r[c|1]`
from `efa`, `efa + 4`. -/
def mem_ldl (s : I960) (op efa c : Nat) : I960 :=
  let s1 := setR s (c ||| 0) (readW s (efa + 0))
  setR s1 (c ||| 1) (readW s1 (efa + 4))

/-- From `i960-mem-op.c`, `mem_ldt`: three word loads into `r[c|0..2]`. -/
def mem_ldt (s : I960) (op efa c : Nat) : I960 :=
  let s1 := setR s (c ||| 0) (readW s (efa + 0))
  let s2 := setR s1 (c ||| 1) (readW s1 (efa + 4))
  setR s2 (c ||| 2) (readW s2 (efa + 8))

/-- From `i960-mem-op.c`, `mem_ldq`: four word loads into `r[c|0..3]`. -/
def mem_ldq (s : I960) (op efa c : Nat) : I960 :=
  let s1 := setR s (c ||| 0) (readW s (efa + 0))
  let s2 := setR s1 (c ||| 1) (readW s1 (efa + 4))
  let s3 := setR s2 (c ||| 2) (readW s2 (efa + 8))
  setR s3 (c ||| 3) (readW s3 (efa + 12))

/-- From `i960-mem-op.c`, `mem_stl`: store `r[c|0]`, `r[c|1]` to `efa`,
`efa + 4`. -/
def mem_stl (s : I960) (op efa c : Nat) : I960 :=
  let s1 := writeW s (efa + 0) (s.r (c ||| 0))
  writeW s1 (efa + 4) (s1.r (c ||| 1))

/-- From `i960-mem-op.c`, `mem_stt`: store `r[c|0..2]`. -/
def mem_stt (s : I960) (op efa c : Nat) : I960 :=
  let s1 := writeW s (efa + 0) (s.r (c ||| 0))
  let s2 := writeW s1 (efa + 4) (s1.r (c ||| 1))
  writeW s2 (efa + 8) (s2.r (c ||| 2))

/-- From `i960-mem-op.c`, `mem_stq`: store `r[c|0..3]`. -/
def mem_stq (s : I960) (op efa c : Nat) : I960 :=
  let s1 := writeW s (efa + 0) (s.r (c ||| 0))
  let s2 := writeW s1 (efa + 4) (s1.r (c ||| 1))
  let s3 := writeW s2 (efa + 8) (s2.r (c ||| 2))
  writeW s3 (efa + 12) (s3.r (c ||| 3))

/-- From `i960-core.c`, `reg_move`: `mov`/`movl`/`movt`/`movq` (word count
from opcode bits 24..25), written as the fall-through switch of the source:
case `k` copies `r[src|k]` to `r[c|k]` for `k` from `i` down to 1, then
`r[c|0] := a`. -/
def reg_move (s : I960) (op a b c : Nat) : I960 :=
  let i := u32_extract op 24 2
  let src := u32_extract op 0 5
  let s3 := if 3 ≤ i then setR s (c ||| 3) (s.r (src ||| 3)) else s
  let s2 := if 2 ≤ i then setR s3 (c ||| 2) (s3.r (src ||| 2)) else s3
  let s1 := if 1 ≤ i then setR s2 (c ||| 1) (s2.r (src ||| 1)) else s2
  setR s1 (c ||| 0) a

/-- ORing in fewer than `2^k` low bits does not move a number out of its
aligned block of size `2^k`. -/
theorem lor_div_pow (c i k : Nat) (h : i < 2 ^ k) :
    (c ||| i) / 2 ^ k = c / 2 ^ k := by
  rw [← Nat.shiftRight_eq_div_pow, ← Nat.shiftRight_eq_div_pow]
  apply Nat.eq_of_testBit_eq
  intro j
  rw [Nat.testBit_shiftRight, Nat.testBit_shiftRight, Nat.testBit_or]
  have hz : i.testBit (k + j) = false :=
    Nat.testBit_lt_two_pow
      (lt_of_lt_of_le h (Nat.pow_le_pow_right (by norm_num) (by omega)))
  rw [hz, Bool.or_false]

/-- Aligned-pair version of `lor_div_pow`. -/
theorem lor_div_two (c i : Nat) (h : i < 2) : (c ||| i) / 2 = c / 2 := by
  simpa using lor_div_pow c i 1 (by omega)

/-- Aligned-quad version of `lor_div_pow`. -/
theorem lor_div_four (c i : Nat) (h : i < 4) : (c ||| i) / 4 = c / 4 := by
  simpa using lor_div_pow c i 2 (by omega)

/-- ORing 1 into an odd index is the identity. -/
theorem lor_one_of_odd (c : Nat) (h : c % 2 = 1) : c ||| 1 = c := by
  apply Nat.eq_of_testBit_eq
  intro j
  rw [Nat.testBit_or]
  cases j with
  | zero => simp [Nat.testBit_zero, h]
  | succ n =>
      have h1 : (1 : Nat).testBit (n + 1) = false :=
        Nat.testBit_lt_two_pow (by
          have : (2 : Nat) ≤ 2 ^ (n + 1) := Nat.le_self_pow (by omega) 2
          omega)
      rw [h1, Bool.or_false]

/-- `readW` ignores register writes. -/
theorem readW_setR (t : I960) (i v x : Nat) : readW (setR t i v) x = readW t x := rfl

/-- C10.  Multi-word transfers index registers with bitwise OR, not
addition: every register a transfer touches stays in the naturally aligned
group containing the encoded base index `c` (pairs for `ldl`/`stl`, quads
for the triple and quad forms and for `reg_move`), the stored words are read
from `r[c|i]`, and with an odd `c` the two `ldl` destinations collapse onto
`r[c]` itself, which ends up holding the second fetched word (`efa + 4`)
while every other register is untouched. -/
theorem c10_or_indexing (s : I960) (op a b efa c j : Nat) :
    (j / 2 ≠ c / 2 → (mem_ldl s op efa c).r j = s.r j) ∧
    (j / 4 ≠ c / 4 →
      (mem_ldt s op efa c).r j = s.r j ∧
      (mem_ldq s op efa c).r j = s.r j ∧
      (reg_move s op a b c).r j = s.r j) ∧
    ((mem_stl s op efa c).r = s.r ∧
      (mem_stl s op efa c).mem ((efa + 4) % U32) = u32 (s.r (c ||| 1)) ∧
      (c ||| 1) / 2 = c / 2) ∧
    ((mem_stt s op efa c).r = s.r ∧
      (mem_stt s op efa c).mem ((efa + 8) % U32) = u32 (s.r (c ||| 2)) ∧
      (c ||| 2) / 4 = c / 4) ∧
    ((mem_stq s op efa c).r = s.r ∧
      (mem_stq s op efa c).mem ((efa + 12) % U32) = u32 (s.r (c ||| 3)) ∧
      (c ||| 3) / 4 = c / 4) ∧
    (c % 2 = 1 →
      (mem_ldl s op efa c).r c = readW s (efa + 4) ∧
      (j ≠ c → (mem_ldl s op efa c).r j = s.r j)) := by
  refine ⟨?_, ?_, ⟨rfl, ?_, lor_div_two c 1 (by omega)⟩,
    ⟨rfl, ?_, lor_div_four c 2 (by omega)⟩,
    ⟨rfl, ?_, lor_div_four c 3 (by omega)⟩, ?_⟩
  · intro hj
    have h0 : j ≠ c ||| 0 := fun e => hj (by rw [e, lor_div_two c 0 (by omega)])
    have h1 : j ≠ c ||| 1 := fun e => hj (by rw [e, lor_div_two c 1 (by omega)])
    unfold mem_ldl
    dsimp only
    rw [setR_r_ne _ _ _ _ h1, setR_r_ne _ _ _ _ h0]
  · intro hj
    have h0 : j ≠ c ||| 0 := fun e => hj (by rw [e, lor_div_four c 0 (by omega)])
    have h1 : j ≠ c ||| 1 := fun e => hj (by rw [e, lor_div_four c 1 (by omega)])
    have h2 : j ≠ c ||| 2 := fun e => hj (by rw [e, lor_div_four c 2 (by omega)])
    have h3 : j ≠ c ||| 3 := fun e => hj (by rw [e, lor_div_four c 3 (by omega)])
    refine ⟨?_, ?_, ?_⟩
    · unfold mem_ldt
      dsimp only
      rw [setR_r_ne _ _ _ _ h2, setR_r_ne _ _ _ _ h1, setR_r_ne _ _ _ _ h0]
    · unfold mem_ldq
      dsimp only
      rw [setR_r_ne _ _ _ _ h3, setR_r_ne _ _ _ _ h2, setR_r_ne _ _ _ _ h1,
        setR_r_ne _ _ _ _ h0]
    · have h0c : j ≠ c := by simpa [Nat.or_zero] using h0
      unfold reg_move
      dsimp only
      split_ifs <;> simp [setR, h0c, h1, h2, h3]
  · simp [mem_stl, writeW]
  · simp [mem_stt, writeW]
  · simp [mem_stq, writeW]
  · intro hodd
    have e0 : c ||| 0 = c := Nat.or_zero c
    have e1 : c ||| 1 = c := lor_one_of_odd c hodd
    constructor
    · unfold mem_ldl
      dsimp only
      rw [e0, e1, setR_r_eq, readW_setR]
    · intro hjc
      unfold mem_ldl
      dsimp only
      rw [e0, e1, setR_r_ne _ _ _ _ hjc, setR_r_ne _ _ _ _ hjc]

/-- Witness for C10: base index `c = 5` (odd, quad group `4..7`),
register `j = 0` outside every group. -/
theorem c10_or_indexing_witness :
    (mem_ldl S0 0 100 5).r 0 = S0.r 0 ∧
    (mem_ldq S0 0 100 5).r 0 = S0.r 0 ∧
    (mem_ldl S0 0 100 5).r 5 = readW S0 104 :=
  ⟨(c10_or_indexing S0 0 1 2 100 5 0).1 (by decide),
   ((c10_or_indexing S0 0 1 2 100 5 0).2.1 (by decide)).2.1,
   ((c10_or_indexing S0 0 1 2 100 5 0).2.2.2.2.2 (by decide)).1⟩
